import Mathlib

/-!
Shallow embedding of the Ceres bundle-adjustment arrow
(`src/arrows/ceres/bundle_adjust.cxx`) of the kwiver repository.

Cameras, landmarks and tracks are modelled as association lists keyed by
integer ids (std::map semantics); numeric payloads use `ℚ` in place of
`double` (every claim under study is structural, not floating-point
arithmetic).  Helper routines of this repository that are declared in
headers outside `src/` (`camera_options::extract_camera_parameters`,
`camera_options::update_camera_parameters`,
`camera_options::enumerate_constant_intrinsics`, `LossFunctionFactory`,
`num_distortion_params`, the `landmark_d` copy/`set_loc` semantics) are
modelled from the spec; each such definition carries a doc comment that
starts with `Modelled from the spec:`.  The external Ceres solver is an
opaque function argument constrained only by `SolverSpec`.
-/

namespace KwiverCeresBA

abbrev FrameId := Nat
abbrev TrackId := Nat
abbrev Params := List ℚ

/-- Association-list model of `std::map<…>::find`: returns the value bound to
the first occurrence of the key. -/
def alookup {α : Type} : List (Nat × α) → Nat → Option α
  | [], _ => none
  | p :: rest, key => if key = p.1 then some p.2 else alookup rest key

/-- Association-list model of `std::map` insert-or-assign keeping ascending
key order (the position only matters for iteration order, never for lookup). -/
def mapInsert {α : Type} : List (Nat × α) → Nat → α → List (Nat × α)
  | [], k, v => [(k, v)]
  | p :: rest, k, v =>
    if k < p.1 then (k, v) :: p :: rest
    else if k = p.1 then (k, v) :: rest
    else p :: mapInsert rest k v

/-- Model of `std::map<frame_id_t, unsigned int>::operator[]` as used at
`frame_to_intr_map[ts->frame_id]` (bundle_adjust.cxx line 264): returns the
bound value, or value-initializes (0) and inserts a new entry when the key is
absent. -/
def mapBracket (m : List (FrameId × Nat)) (k : FrameId) :
    Nat × List (FrameId × Nat) :=
  match alookup m k with
  | some v => (v, m)
  | none => (0, m ++ [(k, 0)])

/-- Camera intrinsics: focal length, principal point, aspect ratio, skew and
a variable-length distortion coefficient vector (vital camera_intrinsics). -/
structure CameraIntrinsics where
  focal : ℚ
  pp_x : ℚ
  pp_y : ℚ
  aspect : ℚ
  skew : ℚ
  dist : List ℚ
deriving DecidableEq, Repr

/-- A vital camera: extrinsic parameters (rotation and translation, 6 values)
plus a reference to a shared intrinsics object.  Pointer identity of the
shared intrinsics instance is modelled by the `intr_ptr` tag: two cameras
alias the same intrinsics object exactly when their tags agree. -/
structure Camera where
  extrinsics : Params
  intr_ptr : Nat
  intr : CameraIntrinsics
deriving DecidableEq, Repr

/-- A vital landmark: 3D position plus the remaining attributes (scale,
color, covariance) that bundle adjustment must carry through unchanged. -/
structure Landmark where
  loc : ℚ × ℚ × ℚ
  scale : ℚ
  color : Nat × Nat × Nat
  covar : List ℚ
deriving DecidableEq, Repr

/-- One track state: an observation binding a frame id to a 2D feature
location (`ts->frame_id`, `ts->feat->loc()`). -/
structure TrackState where
  frame_id : FrameId
  feat : ℚ × ℚ
deriving DecidableEq, Repr

/-- A vital track: its id and the ordered history of observations. -/
structure Track where
  id : TrackId
  history : List TrackState
deriving DecidableEq, Repr

/-- Robust loss function types recognized by the configuration surface. -/
inductive LossFunctionType
  | trivial_loss
  | huber_loss
  | cauchy_loss
deriving DecidableEq, Repr

/-- A constructed robust loss function instance (type + scale). -/
structure LossFn where
  kind : LossFunctionType
  scale : ℚ
deriving DecidableEq, Repr

/-- Modelled from the spec: `LossFunctionFactory` (declared in
arrows/ceres/types.h, not under src/) builds the single robust loss-function
instance from the configured type and scale; the spec attaches "a robust loss
function, selected by configured type and scale" to every residual.  The
result is wrapped in `Option` because the call site in bundle_adjust.cxx
(line 296) guards on the pointer being non-null before deleting it. -/
def LossFunctionFactory (t : LossFunctionType) (s : ℚ) : Option LossFn :=
  some { kind := t, scale := s }

/-- Lens distortion models selectable by configuration. -/
inductive DistortionType
  | no_distortion
  | polynomial_radial
  | polynomial_radial_tangential
  | rational_radial_tangential
deriving DecidableEq, Repr

/-- Modelled from the spec: `num_distortion_params` (declared outside src/)
gives the model-specific distortion coefficient count D of §4.2. -/
def num_distortion_params : DistortionType → Nat
  | .no_distortion => 0
  | .polynomial_radial => 2
  | .polynomial_radial_tangential => 5
  | .rational_radial_tangential => 8

/-- Modelled from the spec: the external solver configuration
(`::ceres::Solver::Options`) is opaque to this core; the only operation the
source consumes is its `IsValid` check, modelled by the `validFlag` field. -/
structure SolverOptions where
  validFlag : Bool
deriving DecidableEq, Repr

/-- Model of the external `::ceres::Solver::Options::IsValid` call. -/
def Options_IsValid (o : SolverOptions) : Bool :=
  o.validFlag

/-- Modelled from the spec: the camera option group (§4.2) holding the
hold-constant flags for the intrinsic parameters and the configured lens
distortion model. -/
structure CameraOptions where
  hold_focal_length : Bool
  hold_principal_point : Bool
  hold_aspect_ratio : Bool
  hold_skew : Bool
  hold_distortion : Bool
  lens_distortion_type : DistortionType
deriving DecidableEq, Repr

/-- The algorithm state (`bundle_adjust::priv`): the fields set by
`set_configuration` and read by `check_configuration`/`optimize`. -/
structure BAState where
  verbose : Bool
  loss_function_type : LossFunctionType
  loss_function_scale : ℚ
  options : SolverOptions
  camera_opts : CameraOptions
deriving DecidableEq, Repr

/-- A vital config_block, opaque to `check_configuration` (which never reads
its argument): modelled as a bag of key/value strings. -/
abbrev ConfigBlock : Type := List (String × String)

/-- Result of `check_configuration`: the returned bool plus whether an
error-severity message was sent to the logger. -/
structure CheckResult where
  ok : Bool
  errorLogged : Bool
deriving DecidableEq, Repr

/-- Embedding of `bundle_adjust::check_configuration` (bundle_adjust.cxx
lines 176-187): if the stored solver options fail `IsValid`, log the message
at error severity and return false; otherwise return true.  The `config`
argument is never read. -/
def check_configuration (st : BAState) (_config : ConfigBlock) : CheckResult :=
  if Options_IsValid st.options then { ok := true, errorLogged := false }
  else { ok := false, errorLogged := true }

/-- Modelled from the spec: §4.2 constraint enumeration.  Index layout is
fixed: 0 = focal length, 1/2 = principal point, 3 = aspect ratio, 4 = skew,
5..(5+D-1) = distortion coefficients; the held-constant indices are listed in
that order according to the configuration flags. -/
def enumerate_constant_intrinsics (co : CameraOptions) : List Nat :=
  (if co.hold_focal_length then [0] else []) ++
  (if co.hold_principal_point then [1, 2] else []) ++
  (if co.hold_aspect_ratio then [3] else []) ++
  (if co.hold_skew then [4] else []) ++
  (if co.hold_distortion then
    (List.range (num_distortion_params co.lens_distortion_type)).map (5 + ·)
  else [])

/-- Pad with zeros or truncate a coefficient vector to exactly `n` entries
(spec §4.1: "zero-padded or truncated consistently with the model's declared
parameter count"). -/
def padTrunc (n : Nat) (xs : List ℚ) : List ℚ :=
  xs.take n ++ List.replicate (n - xs.length) 0

/-- Modelled from the spec: the flattened intrinsics parameter block of §4.2:
`[focal, pp_x, pp_y, aspect, skew] ++ distortion` with the distortion
coefficients brought to the model's declared count D. -/
def flattenIntr (ndp : Nat) (K : CameraIntrinsics) : Params :=
  [K.focal, K.pp_x, K.pp_y, K.aspect, K.skew] ++ padTrunc ndp K.dist

/-- Inverse of `flattenIntr`: rebuild a camera_intrinsics value from a flat
parameter block (used by the result-marshalling of §4.5). -/
def unflattenIntr (p : Params) : CameraIntrinsics :=
  { focal := p.getD 0 0, pp_x := p.getD 1 0, pp_y := p.getD 2 0,
    aspect := p.getD 3 0, skew := p.getD 4 0, dist := p.drop 5 }

/-- Modelled from the spec: the recursion of
`camera_options::extract_camera_parameters` (§4.1) over the camera map.
Accumulators: the frame→extrinsics map, the list of unique intrinsics blocks,
the frame→intrinsics-index map, and the table mapping an intrinsics instance
(pointer identity, `intr_ptr`) to its already-assigned group index.  Two
cameras share a group if and only if they reference the same intrinsics
instance. -/
def extractLoop (ndp : Nat) :
    List (FrameId × Camera) →
    List (FrameId × Params) → List Params → List (FrameId × Nat) →
    List (Nat × Nat) →
    List (FrameId × Params) × List Params × List (FrameId × Nat)
  | [], cp, cip, fti, _ => (cp, cip, fti)
  | (f, c) :: rest, cp, cip, fti, seen =>
    match alookup seen c.intr_ptr with
    | some i =>
      extractLoop ndp rest (cp ++ [(f, c.extrinsics)]) cip (fti ++ [(f, i)])
        seen
    | none =>
      extractLoop ndp rest (cp ++ [(f, c.extrinsics)])
        (cip ++ [flattenIntr ndp c.intr]) (fti ++ [(f, cip.length)])
        (seen ++ [(c.intr_ptr, cip.length)])

/-- Modelled from the spec: `camera_options::extract_camera_parameters`
(§4.1, declared outside src/): from the full camera collection produce the
frame→extrinsics map, the deduplicated list of unique intrinsics parameter
blocks, and the frame→intrinsics-group-index map. -/
def extract_camera_parameters (ndp : Nat) (cams : List (FrameId × Camera)) :
    List (FrameId × Params) × List Params × List (FrameId × Nat) :=
  extractLoop ndp cams [] [] [] []

/-- One reprojection residual term as assembled by
`problem.AddResidualBlock(create_cost_func(type, x, y), loss, intr, cam, lm)`
(bundle_adjust.cxx lines 267-272): the cost function's key (distortion type
and observed 2D point) plus the three parameter blocks it is wired to,
addressed by their stable keys (intrinsics-group index, frame id, track id). -/
structure Residual where
  dt : DistortionType
  obs_x : ℚ
  obs_y : ℚ
  intr_block : Nat
  cam_block : FrameId
  lm_block : TrackId
deriving DecidableEq, Repr

/-- Embedding of the inner observation loop of `bundle_adjust::optimize`
(bundle_adjust.cxx lines 257-274): for each observation of the track, skip it
when its frame is not in the extracted camera map, otherwise read the
intrinsics index through `frame_to_intr_map[frame]` (operator[], which may
insert), add one residual wired to the three blocks, and set the
loss-function-used flag. -/
def obsLoop (dt : DistortionType) (cp : List (FrameId × Params))
    (tid : TrackId) :
    List TrackState → List (FrameId × Nat) → Bool →
    List Residual × List (FrameId × Nat) × Bool
  | [], m, used => ([], m, used)
  | ts :: rest, m, used =>
    if (alookup cp ts.frame_id).isSome then
      let im := mapBracket m ts.frame_id
      let r := obsLoop dt cp tid rest im.2 true
      ({ dt := dt, obs_x := ts.feat.1, obs_y := ts.feat.2,
         intr_block := im.1, cam_block := ts.frame_id,
         lm_block := tid } :: r.1, r.2)
    else obsLoop dt cp tid rest m used

/-- Embedding of the outer track loop of `bundle_adjust::optimize`
(bundle_adjust.cxx lines 247-275): skip the whole track when its landmark is
not in the extracted landmark parameter map, otherwise run the observation
loop. -/
def trackLoop (dt : DistortionType) (lmp : List (TrackId × Params))
    (cp : List (FrameId × Params)) :
    List Track → List (FrameId × Nat) → Bool →
    List Residual × List (FrameId × Nat) × Bool
  | [], m, used => ([], m, used)
  | t :: rest, m, used =>
    if (alookup lmp t.id).isSome then
      let o := obsLoop dt cp t.id t.history m used
      let r := trackLoop dt lmp cp rest o.2.1 o.2.2
      (o.1 ++ r.1, r.2)
    else trackLoop dt lmp cp rest m used

/-- The constraint applied to one intrinsics parameter block (bundle
adjust.cxx lines 277-292): the whole block set constant, a
SubsetParameterization freezing the listed indices of a `5 + D`-long block,
or no constraint. -/
inductive BlockConstraint
  | fullyConstant
  | subsetConstant (totalParams : Nat) (indices : List Nat)
  | unconstrained
deriving DecidableEq, Repr

/-- Embedding of the per-block constraint choice of `bundle_adjust::optimize`
(bundle_adjust.cxx lines 281-291): if the constant-index count exceeds
`4 + ndp` the whole block is set constant; otherwise, if the list is
non-empty, a subset parameterization over `5 + ndp` parameters is installed;
otherwise nothing is applied. -/
def intrinsicsConstraint (ndp : Nat) (constant_intrinsics : List Nat) :
    BlockConstraint :=
  if 4 + ndp < constant_intrinsics.length then .fullyConstant
  else if !constant_intrinsics.isEmpty then
    .subsetConstant (5 + ndp) constant_intrinsics
  else .unconstrained

/-- The flat parameter store whose blocks the Ceres problem points into:
landmark blocks keyed by track id, extrinsics blocks keyed by frame id, and
the unique intrinsics blocks addressed by index. -/
structure ParamStore where
  lms : List (TrackId × Params)
  cams : List (FrameId × Params)
  intrs : List Params
deriving DecidableEq, Repr

/-- The external `::ceres::Solve` collaborator: an opaque function from the
assembled residual set and the parameter store to the mutated store.  The
physical solver mutates the registered double buffers in place, so any
faithful instance preserves the key structure of the store and leaves blocks
that no residual references untouched; `SolverSpec` states exactly that. -/
structure SolverSpec
    (solve : List Residual → ParamStore → ParamStore) : Prop where
  lms_keys : ∀ rs s, ((solve rs s).lms).map Prod.fst = s.lms.map Prod.fst
  cams_keys : ∀ rs s, ((solve rs s).cams).map Prod.fst = s.cams.map Prod.fst
  intrs_len : ∀ rs s, ((solve rs s).intrs).length = s.intrs.length
  lms_frame : ∀ rs s id, id ∉ rs.map (fun r => r.lm_block) →
    alookup (solve rs s).lms id = alookup s.lms id
  cams_frame : ∀ rs s f, f ∉ rs.map (fun r => r.cam_block) →
    alookup (solve rs s).cams f = alookup s.cams f
  intrs_frame : ∀ rs s i, i ∉ rs.map (fun r => r.intr_block) →
    (solve rs s).intrs.get? i = s.intrs.get? i

/-- The landmark location serialized into its parameter block
(`std::vector<double>(loc.data(), loc.data()+3)`, bundle_adjust.cxx
line 216). -/
def locToParams (lm : Landmark) : Params :=
  [lm.loc.1, lm.loc.2.1, lm.loc.2.2]

/-- Read a 3D position back out of a landmark parameter block
(`Eigen::Map<const vector_3d>(&lmp.second[0])`, bundle_adjust.cxx
line 310). -/
def paramsToVec3 (p : Params) : ℚ × ℚ × ℚ :=
  (p.getD 0 0, p.getD 1 0, p.getD 2 0)

/-- Modelled from the spec: copy-construct a `landmark_d` from an existing
landmark and `set_loc` the optimized position (bundle_adjust.cxx lines
309-310): a new landmark value holding the updated 3D position and
"preserving all other landmark attributes from the original (color,
covariance, etc., if present) except position" (§4.5). -/
def landmark_set_loc (lm : Landmark) (p : ℚ × ℚ × ℚ) : Landmark :=
  { lm with loc := p }

/-- Embedding of the landmark update loop of `bundle_adjust::optimize`
(bundle_adjust.cxx lines 306-312): for each entry of `landmark_params`,
replace the landmark bound to that track id in the map by a fresh landmark
carrying the optimized position.  (`lms[lmp.first]` uses operator[]; in the
source the key always exists because `landmark_params` was built from `lms`;
a missing key would dereference a default-inserted null shared pointer, so
that branch is modelled as unreachable and left as the identity.) -/
def updateLandmarksLoop :
    List (TrackId × Params) → List (TrackId × Landmark) →
    List (TrackId × Landmark)
  | [], lms => lms
  | (id, p) :: rest, lms =>
    updateLandmarksLoop rest
      (match alookup lms id with
       | some lm => mapInsert lms id (landmark_set_loc lm (paramsToVec3 p))
       | none => lms)

/-- Modelled from the spec: `camera_options::update_camera_parameters`
(§4.5, declared outside src/): rebuild the camera collection from the
(possibly solver-mutated) flat blocks — each frame maps to a camera whose
extrinsics reflect the updated pose and whose intrinsics reference the
updated, possibly shared, intrinsics-group value. -/
def update_camera_parameters (cp : List (FrameId × Params))
    (cip : List Params) (fti : List (FrameId × Nat)) :
    List (FrameId × Camera) :=
  cp.map (fun p =>
    (p.1, { extrinsics := p.2, intr_ptr := (alookup fti p.1).getD 0,
            intr := unflattenIntr
              ((cip.get? ((alookup fti p.1).getD 0)).getD []) }))

/-- The `landmark_params` map built by `optimize` (bundle_adjust.cxx lines
211-217): one entry per landmark of the landmark map (std::map keys are
unique, so the operator[] assignment loop binds each key exactly once),
holding the serialized 3D location. -/
def landmarkParamsOf (lms : List (TrackId × Landmark)) :
    List (TrackId × Params) :=
  lms.map (fun p => (p.1, locToParams p.2))

/-- The distortion parameter count `ndp` used by `optimize`
(bundle_adjust.cxx line 277). -/
def ndpOf (st : BAState) : Nat :=
  num_distortion_params st.camera_opts.lens_distortion_type

/-- The `extract_camera_parameters` call of `optimize` (bundle_adjust.cxx
lines 229-232). -/
def extractOf (st : BAState) (cams : List (FrameId × Camera)) :
    List (FrameId × Params) × List Params × List (FrameId × Nat) :=
  extract_camera_parameters (ndpOf st) cams

/-- The residual-building double loop of `optimize` (bundle_adjust.cxx lines
246-275) applied to the extracted parameter maps. -/
def residualLoopOf (st : BAState) (cams : List (FrameId × Camera))
    (lms : List (TrackId × Landmark)) (trks : List Track) :
    List Residual × List (FrameId × Nat) × Bool :=
  trackLoop st.camera_opts.lens_distortion_type (landmarkParamsOf lms)
    (extractOf st cams).1 trks (extractOf st cams).2.2 false

/-- The parameter store registered with the Ceres problem by `optimize`:
`landmark_params`, `camera_params` and `camera_intr_params`. -/
def preStoreOf (st : BAState) (cams : List (FrameId × Camera))
    (lms : List (TrackId × Landmark)) : ParamStore :=
  { lms := landmarkParamsOf lms, cams := (extractOf st cams).1,
    intrs := (extractOf st cams).2.1 }

/-- Everything observable about one `bundle_adjust::optimize` call: the two
in/out collection references, whether the early return was taken, whether an
error was logged, whether `::ceres::Solve` was invoked, the assembled
residual set and per-intrinsics-block constraints, the loss-function
accounting, and the parameter store before/after the solve together with the
frame→intrinsics map before/after the residual loop. -/
structure OptimizeResult where
  cameras : Option (List (FrameId × Camera))
  landmarks : Option (List (TrackId × Landmark))
  aborted : Bool
  errorReported : Bool
  solveInvoked : Bool
  residuals : List Residual
  intrConstraints : List BlockConstraint
  lossCreated : Nat
  lossAttached : Bool
  lossDeleted : Bool
  pre : ParamStore
  ftiPre : List (FrameId × Nat)
  ftiPost : List (FrameId × Nat)
  post : ParamStore
deriving Repr

/-- Embedding of `bundle_adjust::optimize` (bundle_adjust.cxx lines
191-319).  The in/out `camera_map_sptr`/`landmark_map_sptr` references are
`Option`-valued inputs returned (possibly replaced) in the result; a null
input takes the early `return` at line 200 (a silent no-op: the TODO at line
199 notes an exception should be thrown).  Otherwise: build the landmark
parameter map from the landmark map (one entry per landmark, std::map keys
are unique), extract the camera parameters, enumerate the held-constant
intrinsics, create the loss function, run the residual loop, choose the
per-intrinsics-block constraints, delete the loss function if it was never
attached, invoke the external solver on the assembled problem, and marshal
the mutated blocks back into fresh landmark and camera collections. -/
def optimize (st : BAState)
    (solve : List Residual → ParamStore → ParamStore)
    (cameras : Option (List (FrameId × Camera)))
    (landmarks : Option (List (TrackId × Landmark)))
    (tracks : Option (List Track)) : OptimizeResult :=
  match cameras, landmarks, tracks with
  | some cams, some lms, some trks =>
    let ex := extractOf st cams
    let constant_intrinsics := enumerate_constant_intrinsics st.camera_opts
    let loss_func :=
      LossFunctionFactory st.loss_function_type st.loss_function_scale
    let bl := residualLoopOf st cams lms trks
    let residuals := bl.1
    let fti2 := bl.2.1
    let loss_func_used := bl.2.2
    let intrConstraints := ex.2.1.map
      (fun _cip => intrinsicsConstraint (ndpOf st) constant_intrinsics)
    let lossDeleted := loss_func.isSome && !loss_func_used
    let store := preStoreOf st cams lms
    let store2 := solve residuals store
    let lms2 := updateLandmarksLoop store2.lms lms
    let cams2 := update_camera_parameters store2.cams store2.intrs fti2
    { cameras := some cams2, landmarks := some lms2, aborted := false,
      errorReported := false, solveInvoked := true, residuals := residuals,
      intrConstraints := intrConstraints, lossCreated := 1,
      lossAttached := loss_func_used, lossDeleted := lossDeleted,
      pre := store, ftiPre := ex.2.2, ftiPost := fti2,
      post := store2 }
  | _, _, _ =>
    { cameras := cameras, landmarks := landmarks, aborted := true,
      errorReported := false, solveInvoked := false, residuals := [],
      intrConstraints := [], lossCreated := 0, lossAttached := false,
      lossDeleted := false, pre := { lms := [], cams := [], intrs := [] },
      ftiPre := [], ftiPost := [],
      post := { lms := [], cams := [], intrs := [] } }

/-- The identity solver: a zero-iteration `::ceres::Solve` that leaves every
parameter block untouched.  Used to instantiate the opaque collaborator in
witnesses. -/
def idSolve : List Residual → ParamStore → ParamStore :=
  fun _ s => s

/-- A solver that perturbs exactly the intrinsics blocks referenced by some
residual of the assembled problem (overwriting each coefficient with 9) and
leaves every other block untouched: one admissible behavior of the external
nonlinear solver when intrinsics are free to move. -/
def bumpIntrSolve : List Residual → ParamStore → ParamStore :=
  fun rs s =>
    { s with intrs := (List.range s.intrs.length).map (fun i =>
        let b := (s.intrs.get? i).getD []
        if i ∈ rs.map (fun r => r.intr_block) then b.map (fun _ => (9 : ℚ))
        else b) }

/-- Sample intrinsics instance shared by the rig of the examples. -/
def exIntr : CameraIntrinsics :=
  { focal := 1, pp_x := 0, pp_y := 0, aspect := 1, skew := 0, dist := [] }

/-- A second, distinct intrinsics instance. -/
def exIntrB : CameraIntrinsics :=
  { focal := 2, pp_x := 0, pp_y := 0, aspect := 1, skew := 0, dist := [] }

/-- Camera for frame 1, referencing intrinsics instance 0. -/
def exCam1 : Camera :=
  { extrinsics := [0, 0, 0, 0, 0, 0], intr_ptr := 0, intr := exIntr }

/-- Camera for frame 2 with its own intrinsics instance 1. -/
def exCam2 : Camera :=
  { extrinsics := [0, 0, 0, 1, 0, 0], intr_ptr := 1, intr := exIntrB }

/-- Camera for frame 2 sharing intrinsics instance 0 with `exCam1`. -/
def exShared2 : Camera :=
  { extrinsics := [0, 0, 0, 1, 0, 0], intr_ptr := 0, intr := exIntr }

/-- Sample landmark for track 7. -/
def exLm : Landmark :=
  { loc := (0, 0, 1), scale := 1, color := (10, 20, 30), covar := [1, 0, 0] }

/-- Sample landmark for track 9 (never observed by any track). -/
def exLm2 : Landmark :=
  { loc := (2, 3, 4), scale := 2, color := (1, 2, 3), covar := [] }

/-- Track 7 observed in frames 1 and 2. -/
def exTrack : Track :=
  { id := 7, history := [{ frame_id := 1, feat := (0, 0) },
                         { frame_id := 2, feat := (0, 0) }] }

/-- Track 7 observed in frame 1 only. -/
def exTrackF1 : Track :=
  { id := 7, history := [{ frame_id := 1, feat := (0, 0) }] }

/-- Two-camera collection with distinct intrinsics instances. -/
def exCams : List (FrameId × Camera) := [(1, exCam1), (2, exCam2)]

/-- Two-camera collection sharing a single intrinsics instance. -/
def exCamsShared : List (FrameId × Camera) := [(1, exCam1), (2, exShared2)]

/-- Landmark collection holding tracks 7 and 9. -/
def exLms : List (TrackId × Landmark) := [(7, exLm), (9, exLm2)]

/-- Track collection holding only the frame-1 observation of track 7. -/
def exTrksF1 : List Track := [exTrackF1]

/-- Track collection holding both observations of track 7. -/
def exTrks : List Track := [exTrack]

/-- A configured algorithm state whose solver options pass `IsValid`. -/
def exState : BAState :=
  { verbose := false, loss_function_type := .huber_loss,
    loss_function_scale := 1, options := { validFlag := true },
    camera_opts := { hold_focal_length := false,
                     hold_principal_point := false,
                     hold_aspect_ratio := false, hold_skew := false,
                     hold_distortion := false,
                     lens_distortion_type := .no_distortion } }

/-- The same state with solver options that fail `IsValid`. -/
def exStateBad : BAState :=
  { exState with options := { validFlag := false } }

/-- The first residual assembled for `exTrks` over `exCams`: track 7 observed
in frame 1 through intrinsics group 0. -/
def exRes1 : Residual :=
  { dt := .no_distortion, obs_x := 0, obs_y := 0, intr_block := 0,
    cam_block := 1, lm_block := 7 }

/-- Spec-side characterization (§4.3 steps 1-3) of the residuals contributed
by one track whose landmark is in the optimization set: one residual per
observation whose frame is in the extracted camera map, wired to the
intrinsics-group index of that frame, the frame's extrinsics block and the
track's landmark block. -/
def specResidualsOfTrack (dt : DistortionType) (cp : List (FrameId × Params))
    (m : List (FrameId × Nat)) (tid : TrackId) (hist : List TrackState) :
    List Residual :=
  hist.filterMap (fun ts =>
    if (alookup cp ts.frame_id).isSome then
      some { dt := dt, obs_x := ts.feat.1, obs_y := ts.feat.2,
             intr_block := (alookup m ts.frame_id).getD 0,
             cam_block := ts.frame_id, lm_block := tid }
    else none)

/-- Spec-side characterization (§4.3) of the full residual set: tracks whose
landmark is absent from the extracted landmark set contribute nothing. -/
def specResiduals (dt : DistortionType) (lmp : List (TrackId × Params))
    (cp : List (FrameId × Params)) (m : List (FrameId × Nat))
    (trks : List Track) : List Residual :=
  trks.flatMap (fun t =>
    if (alookup lmp t.id).isSome then
      specResidualsOfTrack dt cp m t.id t.history
    else [])

/-- Pointer consistency of a camera collection: two cameras referencing the
same intrinsics instance carry the same intrinsics values.  This always holds
in the source, where `intr_ptr` is literal pointer identity. -/
def PtrConsistent (cams : List (FrameId × Camera)) : Prop :=
  ∀ p ∈ cams, ∀ q ∈ cams, p.2.intr_ptr = q.2.intr_ptr → p.2.intr = q.2.intr

instance (cams : List (FrameId × Camera)) : Decidable (PtrConsistent cams) :=
  inferInstanceAs (Decidable (∀ p ∈ cams, ∀ q ∈ cams, _ → _))

theorem alookup_append_left {α : Type} {l1 : List (Nat × α)}
    (l2 : List (Nat × α)) {k : Nat} (h : (alookup l1 k).isSome) :
    alookup (l1 ++ l2) k = alookup l1 k := by
  induction l1 with
  | nil => simp [alookup] at h
  | cons p rest ih =>
    by_cases hk : k = p.1
    · simp [alookup, hk]
    · simp only [List.cons_append, alookup, if_neg hk] at h ⊢
      exact ih h

theorem alookup_append_right {α : Type} {l1 : List (Nat × α)}
    (l2 : List (Nat × α)) {k : Nat} (h : alookup l1 k = none) :
    alookup (l1 ++ l2) k = alookup l2 k := by
  induction l1 with
  | nil => simp
  | cons p rest ih =>
    by_cases hk : k = p.1
    · simp [alookup, hk] at h
    · simp only [alookup, if_neg hk] at h
      simp only [List.cons_append, alookup, if_neg hk]
      exact ih h

theorem alookup_isSome_iff_mem {α : Type} (l : List (Nat × α)) (k : Nat) :
    (alookup l k).isSome ↔ k ∈ l.map Prod.fst := by
  induction l with
  | nil => simp [alookup]
  | cons p rest ih =>
    by_cases hk : k = p.1
    · simp [alookup, hk]
    · simp [alookup, hk, ih]

theorem alookup_eq_none_iff {α : Type} (l : List (Nat × α)) (k : Nat) :
    alookup l k = none ↔ k ∉ l.map Prod.fst := by
  rw [← alookup_isSome_iff_mem, ← Option.not_isSome_iff_eq_none]

theorem mem_of_alookup_eq_some {α : Type} {l : List (Nat × α)} {k : Nat}
    {v : α} (h : alookup l k = some v) : (k, v) ∈ l := by
  induction l with
  | nil => simp [alookup] at h
  | cons p rest ih =>
    by_cases hk : k = p.1
    · obtain ⟨k', v'⟩ := p
      simp only [alookup, if_pos hk, Option.some.injEq] at h
      simp_all
    · simp only [alookup, if_neg hk] at h
      exact List.mem_cons_of_mem _ (ih h)

theorem alookup_mapInsert {α : Type} (m : List (Nat × α)) (k : Nat) (v : α)
    (key : Nat) :
    alookup (mapInsert m k v) key =
      if key = k then some v else alookup m key := by
  induction m with
  | nil => by_cases h : key = k <;> simp [mapInsert, alookup, h]
  | cons p rest ih =>
    by_cases h1 : k < p.1
    · by_cases h : key = k <;> simp [mapInsert, alookup, h1, h]
    · by_cases h2 : k = p.1
      · by_cases h : key = k
        · simp [mapInsert, alookup, h1, h2, h]
        · have hp : ¬ key = p.1 := h2 ▸ h
          simp [mapInsert, alookup, h1, h2, h, hp]
      · by_cases h : key = p.1
        · have hk : ¬ key = k := fun hkk => h2 (hkk ▸ h)
          have hpk : ¬ p.1 = k := fun hh => h2 hh.symm
          simp [mapInsert, alookup, h1, h2, h, hk, hpk]
        · simp [mapInsert, alookup, h1, h2, h, ih]

theorem alookup_map_keyed {α β : Type} (l : List (Nat × α))
    (g : Nat → α → β) (k : Nat) :
    alookup (l.map (fun p => (p.1, g p.1 p.2))) k =
      (alookup l k).map (g k) := by
  induction l with
  | nil => simp [alookup]
  | cons p rest ih =>
    by_cases hk : k = p.1
    · subst hk; simp [alookup]
    · simp [alookup, hk, ih]

theorem keys_map_keyed {α β : Type} (l : List (Nat × α))
    (g : Nat → α → β) :
    (l.map (fun p => (p.1, g p.1 p.2))).map Prod.fst = l.map Prod.fst := by
  induction l with
  | nil => rfl
  | cons p rest ih => simp [ih]

theorem alookup_isSome_congr {α β : Type} {l1 : List (Nat × α)}
    {l2 : List (Nat × β)} (h : l1.map Prod.fst = l2.map Prod.fst) (k : Nat) :
    ((alookup l1 k).isSome ↔ (alookup l2 k).isSome) := by
  rw [alookup_isSome_iff_mem, alookup_isSome_iff_mem, h]

theorem obsLoop_used (dt : DistortionType) (cp : List (FrameId × Params))
    (tid : TrackId) (hist : List TrackState) (m : List (FrameId × Nat))
    (used : Bool) :
    (obsLoop dt cp tid hist m used).2.2 =
      (used || !(obsLoop dt cp tid hist m used).1.isEmpty) := by
  induction hist generalizing m used with
  | nil => simp [obsLoop]
  | cons ts rest ih =>
    by_cases hc : (alookup cp ts.frame_id).isSome
    · simp only [obsLoop, if_pos hc]
      simp [ih _ true]
    · simp only [obsLoop, if_neg hc]
      exact ih m used

theorem isEmpty_append {α : Type} (l1 l2 : List α) :
    (l1 ++ l2).isEmpty = (l1.isEmpty && l2.isEmpty) := by
  cases l1 <;> simp

theorem trackLoop_used (dt : DistortionType) (lmp : List (TrackId × Params))
    (cp : List (FrameId × Params)) (trks : List Track)
    (m : List (FrameId × Nat)) (used : Bool) :
    (trackLoop dt lmp cp trks m used).2.2 =
      (used || !(trackLoop dt lmp cp trks m used).1.isEmpty) := by
  induction trks generalizing m used with
  | nil => simp [trackLoop]
  | cons t rest ih =>
    by_cases hl : (alookup lmp t.id).isSome
    · simp only [trackLoop, if_pos hl]
      rw [ih, obsLoop_used, isEmpty_append]
      simp [Bool.not_and, Bool.or_assoc]
    · simp only [trackLoop, if_neg hl]
      exact ih m used

theorem obsLoop_stable (dt : DistortionType) (cp : List (FrameId × Params))
    (tid : TrackId) (hist : List TrackState) (m : List (FrameId × Nat))
    (used : Bool)
    (H : ∀ ts ∈ hist, (alookup cp ts.frame_id).isSome →
      (alookup m ts.frame_id).isSome) :
    (obsLoop dt cp tid hist m used).1 =
        specResidualsOfTrack dt cp m tid hist ∧
      (obsLoop dt cp tid hist m used).2.1 = m := by
  induction hist generalizing used with
  | nil => simp [obsLoop, specResidualsOfTrack]
  | cons ts rest ih =>
    by_cases hc : (alookup cp ts.frame_id).isSome
    · have hm : (alookup m ts.frame_id).isSome :=
        H ts (List.mem_cons_self ts rest) hc
      obtain ⟨v, hv⟩ := Option.isSome_iff_exists.mp hm
      have hbr : mapBracket m ts.frame_id = (v, m) := by
        simp [mapBracket, hv]
      have ihr := ih true (fun x hx hcx => H x (List.mem_cons_of_mem ts hx) hcx)
      have hspec : specResidualsOfTrack dt cp m tid (ts :: rest) =
          { dt := dt, obs_x := ts.feat.1, obs_y := ts.feat.2,
            intr_block := (alookup m ts.frame_id).getD 0,
            cam_block := ts.frame_id, lm_block := tid } ::
            specResidualsOfTrack dt cp m tid rest := by
        simp [specResidualsOfTrack, List.filterMap_cons, hc]
      refine ⟨?_, ?_⟩
      · simp only [obsLoop, if_pos hc, hbr]
        rw [hspec, ihr.1, hv]
        rfl
      · simp only [obsLoop, if_pos hc, hbr]
        exact ihr.2
    · have ihr := ih used (fun x hx hcx => H x (List.mem_cons_of_mem ts hx) hcx)
      have hspec : specResidualsOfTrack dt cp m tid (ts :: rest) =
          specResidualsOfTrack dt cp m tid rest := by
        simp [specResidualsOfTrack, List.filterMap_cons, hc]
      refine ⟨?_, ?_⟩
      · simp only [obsLoop, if_neg hc]
        rw [hspec, ihr.1]
      · simp only [obsLoop, if_neg hc]
        exact ihr.2

theorem trackLoop_stable (dt : DistortionType) (lmp : List (TrackId × Params))
    (cp : List (FrameId × Params)) (trks : List Track)
    (m : List (FrameId × Nat)) (used : Bool)
    (H : ∀ t ∈ trks, ∀ ts ∈ t.history, (alookup cp ts.frame_id).isSome →
      (alookup m ts.frame_id).isSome) :
    (trackLoop dt lmp cp trks m used).1 = specResiduals dt lmp cp m trks ∧
      (trackLoop dt lmp cp trks m used).2.1 = m := by
  induction trks generalizing used with
  | nil => simp [trackLoop, specResiduals]
  | cons t rest ih =>
    by_cases hl : (alookup lmp t.id).isSome
    · have ho := obsLoop_stable dt cp t.id t.history m used
        (H t (List.mem_cons_self t rest))
      have ihr := ih ((obsLoop dt cp t.id t.history m used).2.2)
        (fun x hx => H x (List.mem_cons_of_mem t hx))
      refine ⟨?_, ?_⟩
      · simp only [trackLoop, if_pos hl]
        rw [ho.2, ihr.1, ho.1]
        simp [specResiduals, hl]
      · simp only [trackLoop, if_pos hl]
        rw [ho.2]
        exact ihr.2
    · have ihr := ih used (fun x hx => H x (List.mem_cons_of_mem t hx))
      refine ⟨?_, ?_⟩
      · simp only [trackLoop, if_neg hl]
        rw [ihr.1]
        simp [specResiduals, hl]
      · simp only [trackLoop, if_neg hl]
        exact ihr.2

theorem updateLandmarksLoop_alookup (ps : List (TrackId × Params))
    (m : List (TrackId × Landmark)) (id : TrackId)
    (hnd : (ps.map Prod.fst).Nodup) :
    alookup (updateLandmarksLoop ps m) id =
      match alookup ps id with
      | some p => (alookup m id).map
          (fun lm => landmark_set_loc lm (paramsToVec3 p))
      | none => alookup m id := by
  induction ps generalizing m with
  | nil => simp [updateLandmarksLoop, alookup]
  | cons kp rest ih =>
    obtain ⟨k, p⟩ := kp
    simp only [List.map_cons, List.nodup_cons] at hnd
    obtain ⟨hknotin, hndrest⟩ := hnd
    have step :
        updateLandmarksLoop ((k, p) :: rest) m =
          updateLandmarksLoop rest
            (match alookup m k with
             | some lm => mapInsert m k (landmark_set_loc lm (paramsToVec3 p))
             | none => m) := rfl
    rw [step, ih _ hndrest]
    by_cases hid : id = k
    · subst hid
      have hrest : alookup rest id = none :=
        (alookup_eq_none_iff rest id).mpr hknotin
      rw [hrest]
      simp only [alookup, if_pos rfl]
      cases hm : alookup m id with
      | some lm => simp [hm, alookup_mapInsert]
      | none => simp [hm]
    · have hcons : alookup ((k, p) :: rest) id = alookup rest id := by
        simp [alookup, hid]
      rw [hcons]
      have hm' :
          alookup
            (match alookup m k with
             | some lm => mapInsert m k (landmark_set_loc lm (paramsToVec3 p))
             | none => m) id = alookup m id := by
        cases hm : alookup m k with
        | some lm => simp [alookup_mapInsert, hid]
        | none => rfl
      rw [hm']

theorem extractLoop_cp (ndp : Nat) (cams : List (FrameId × Camera))
    (cp : List (FrameId × Params)) (cip : List Params)
    (fti : List (FrameId × Nat)) (seen : List (Nat × Nat)) :
    (extractLoop ndp cams cp cip fti seen).1 =
      cp ++ cams.map (fun p => (p.1, p.2.extrinsics)) := by
  induction cams generalizing cp cip fti seen with
  | nil => simp [extractLoop]
  | cons fc rest ih =>
    obtain ⟨f, c⟩ := fc
    cases hseen : alookup seen c.intr_ptr with
    | some i => simp [extractLoop, hseen, ih]
    | none => simp [extractLoop, hseen, ih]

theorem extractLoop_cip_grow (ndp : Nat) (cams : List (FrameId × Camera))
    (cp : List (FrameId × Params)) (cip : List Params)
    (fti : List (FrameId × Nat)) (seen : List (Nat × Nat)) :
    ∃ l, (extractLoop ndp cams cp cip fti seen).2.1 = cip ++ l := by
  induction cams generalizing cp cip fti seen with
  | nil => exact ⟨[], by simp [extractLoop]⟩
  | cons fc rest ih =>
    obtain ⟨f, c⟩ := fc
    cases hseen : alookup seen c.intr_ptr with
    | some i =>
      simp only [extractLoop, hseen]
      exact ih _ _ _ _
    | none =>
      simp only [extractLoop, hseen]
      obtain ⟨l, hl⟩ := ih (cp ++ [(f, c.extrinsics)])
        (cip ++ [flattenIntr ndp c.intr]) (fti ++ [(f, cip.length)])
        (seen ++ [(c.intr_ptr, cip.length)])
      exact ⟨flattenIntr ndp c.intr :: l, by rw [hl]; simp⟩

theorem extractLoop_fti_grow (ndp : Nat) (cams : List (FrameId × Camera))
    (cp : List (FrameId × Params)) (cip : List Params)
    (fti : List (FrameId × Nat)) (seen : List (Nat × Nat)) :
    ∃ l, (extractLoop ndp cams cp cip fti seen).2.2 = fti ++ l := by
  induction cams generalizing cp cip fti seen with
  | nil => exact ⟨[], by simp [extractLoop]⟩
  | cons fc rest ih =>
    obtain ⟨f, c⟩ := fc
    cases hseen : alookup seen c.intr_ptr with
    | some i =>
      simp only [extractLoop, hseen]
      obtain ⟨l, hl⟩ := ih (cp ++ [(f, c.extrinsics)]) cip (fti ++ [(f, i)])
        seen
      exact ⟨(f, i) :: l, by rw [hl]; simp⟩
    | none =>
      simp only [extractLoop, hseen]
      obtain ⟨l, hl⟩ := ih (cp ++ [(f, c.extrinsics)])
        (cip ++ [flattenIntr ndp c.intr]) (fti ++ [(f, cip.length)])
        (seen ++ [(c.intr_ptr, cip.length)])
      exact ⟨(f, cip.length) :: l, by rw [hl]; simp⟩

theorem extractLoop_inv (ndp : Nat) (cams : List (FrameId × Camera))
    (cp : List (FrameId × Params)) (cip : List Params)
    (fti : List (FrameId × Nat)) (seen : List (Nat × Nat))
    (hcov : ∀ p ∈ cp, (alookup fti p.1).isSome)
    (hfti : ∀ p ∈ fti, p.2 < cip.length)
    (hseen : ∀ p ∈ seen, p.2 < cip.length) :
    (∀ p ∈ (extractLoop ndp cams cp cip fti seen).1,
        (alookup (extractLoop ndp cams cp cip fti seen).2.2 p.1).isSome) ∧
      (∀ p ∈ (extractLoop ndp cams cp cip fti seen).2.2,
        p.2 < (extractLoop ndp cams cp cip fti seen).2.1.length) := by
  induction cams generalizing cp cip fti seen with
  | nil => exact ⟨hcov, hfti⟩
  | cons fc rest ih =>
    obtain ⟨f, c⟩ := fc
    have hnew : ∀ (i : Nat) (cip' : List Params), i < cip'.length →
        (∀ p ∈ fti, p.2 < cip'.length) →
        (∀ p ∈ cp ++ [(f, c.extrinsics)],
          (alookup (fti ++ [(f, i)]) p.1).isSome) ∧
        (∀ p ∈ fti ++ [(f, i)], p.2 < cip'.length) := by
      intro i cip' hi hficip'
      refine ⟨?_, ?_⟩
      · intro p hp
        rcases List.mem_append.mp hp with hp | hp
        · have hsome := hcov p hp
          rw [alookup_append_left _ hsome]
          exact hsome
        · rcases List.mem_singleton.mp hp with rfl
          cases hold : (alookup fti f) with
          | some w =>
            rw [alookup_append_left _ (by simp [hold])]
            simp [hold]
          | none =>
            rw [alookup_append_right _ hold]
            simp [alookup]
      · intro p hp
        rcases List.mem_append.mp hp with hp | hp
        · exact hficip' p hp
        · rcases List.mem_singleton.mp hp with rfl
          exact hi
    cases hsn : alookup seen c.intr_ptr with
    | some i =>
      have hi : i < cip.length := hseen _ (mem_of_alookup_eq_some hsn)
      simp only [extractLoop, hsn]
      have hn := hnew i cip hi hfti
      exact ih _ _ _ _ hn.1 hn.2 hseen
    | none =>
      simp only [extractLoop, hsn]
      have hlen : cip.length < (cip ++ [flattenIntr ndp c.intr]).length := by
        simp
      have hfti' : ∀ p ∈ fti, p.2 < (cip ++ [flattenIntr ndp c.intr]).length :=
        fun p hp => lt_trans (hfti p hp) (by simp)
      have hn := hnew cip.length (cip ++ [flattenIntr ndp c.intr]) hlen hfti'
      refine ih _ _ _ _ hn.1 hn.2 ?_
      intro p hp
      rcases List.mem_append.mp hp with hp | hp
      · exact lt_trans (hseen p hp) (by simp)
      · rcases List.mem_singleton.mp hp with rfl
        exact hlen

theorem extractLoop_correct (ndp : Nat) (cams : List (FrameId × Camera))
    (cp : List (FrameId × Params)) (cip : List Params)
    (fti : List (FrameId × Nat)) (seen : List (Nat × Nat))
    (Hcons : ∀ p ∈ cams, ∀ q ∈ cams,
      p.2.intr_ptr = q.2.intr_ptr → p.2.intr = q.2.intr)
    (Hseen : ∀ pr i, alookup seen pr = some i →
      ∃ K, cip.get? i = some (flattenIntr ndp K) ∧
        ∀ p ∈ cams, p.2.intr_ptr = pr → p.2.intr = K)
    (f : FrameId) (c : Camera) (hf : alookup cams f = some c)
    (hfti : alookup fti f = none) :
    ∃ i, alookup (extractLoop ndp cams cp cip fti seen).2.2 f = some i ∧
      (extractLoop ndp cams cp cip fti seen).2.1.get? i =
        some (flattenIntr ndp c.intr) := by
  induction cams generalizing cp cip fti seen with
  | nil => simp [alookup] at hf
  | cons fc rest ih =>
    obtain ⟨f0, c0⟩ := fc
    by_cases hff : f = f0
    · subst hff
      simp [alookup] at hf
      have hc : c = c0 := hf.symm
      subst hc
      cases hsn : alookup seen c.intr_ptr with
      | some i =>
        obtain ⟨K, hK, hrep⟩ := Hseen c.intr_ptr i hsn
        have hcK : c.intr = K :=
          hrep (f, c) (List.mem_cons_self _ _) rfl
        have hi : i < cip.length := by
          rcases List.get?_eq_some.mp hK with ⟨h, _⟩
          exact h
        simp only [extractLoop, hsn]
        obtain ⟨lf, hlf⟩ := extractLoop_fti_grow ndp rest
          (cp ++ [(f, c.extrinsics)]) cip (fti ++ [(f, i)]) seen
        obtain ⟨lc, hlc⟩ := extractLoop_cip_grow ndp rest
          (cp ++ [(f, c.extrinsics)]) cip (fti ++ [(f, i)]) seen
        refine ⟨i, ?_, ?_⟩
        · rw [hlf]
          have h1 : alookup (fti ++ [(f, i)]) f = some i := by
            rw [alookup_append_right _ hfti]
            simp [alookup]
          rw [alookup_append_left _ (by simp [h1]), h1]
        · rw [hlc, List.get?_append hi, hK, hcK]
      | none =>
        simp only [extractLoop, hsn]
        obtain ⟨lf, hlf⟩ := extractLoop_fti_grow ndp rest
          (cp ++ [(f, c.extrinsics)]) (cip ++ [flattenIntr ndp c.intr])
          (fti ++ [(f, cip.length)]) (seen ++ [(c.intr_ptr, cip.length)])
        obtain ⟨lc, hlc⟩ := extractLoop_cip_grow ndp rest
          (cp ++ [(f, c.extrinsics)]) (cip ++ [flattenIntr ndp c.intr])
          (fti ++ [(f, cip.length)]) (seen ++ [(c.intr_ptr, cip.length)])
        refine ⟨cip.length, ?_, ?_⟩
        · rw [hlf]
          have h1 : alookup (fti ++ [(f, cip.length)]) f = some cip.length := by
            rw [alookup_append_right _ hfti]
            simp [alookup]
          rw [alookup_append_left _ (by simp [h1]), h1]
        · rw [hlc]
          have hlt : cip.length < (cip ++ [flattenIntr ndp c.intr]).length := by
            simp
          rw [List.get?_append hlt, List.get?_concat_length]
    · have hfrest : alookup rest f = some c := by
        simpa [alookup, hff] using hf
      have Hcons2 : ∀ p ∈ rest, ∀ q ∈ rest,
          p.2.intr_ptr = q.2.intr_ptr → p.2.intr = q.2.intr :=
        fun p hp q hq => Hcons p (List.mem_cons_of_mem _ hp)
          q (List.mem_cons_of_mem _ hq)
      cases hsn : alookup seen c0.intr_ptr with
      | some i =>
        have Hseen2 : ∀ pr j, alookup seen pr = some j →
            ∃ K, cip.get? j = some (flattenIntr ndp K) ∧
              ∀ p ∈ rest, p.2.intr_ptr = pr → p.2.intr = K := by
          intro pr j hj
          obtain ⟨K, hK, hrep⟩ := Hseen pr j hj
          exact ⟨K, hK, fun p hp => hrep p (List.mem_cons_of_mem _ hp)⟩
        have hfti2 : alookup (fti ++ [(f0, i)]) f = none := by
          rw [alookup_append_right _ hfti]
          simp [alookup, hff]
        simp only [extractLoop, hsn]
        exact ih _ _ _ _ Hcons2 Hseen2 hfrest hfti2
      | none =>
        have Hseen2 : ∀ pr j,
            alookup (seen ++ [(c0.intr_ptr, cip.length)]) pr = some j →
            ∃ K, (cip ++ [flattenIntr ndp c0.intr]).get? j =
                some (flattenIntr ndp K) ∧
              ∀ p ∈ rest, p.2.intr_ptr = pr → p.2.intr = K := by
          intro pr j hj
          cases hold : alookup seen pr with
          | some j0 =>
            rw [alookup_append_left _ (by simp [hold]), hold] at hj
            have hjj : j0 = j := Option.some.inj hj
            obtain ⟨K, hK, hrep⟩ := Hseen pr j0 hold
            have hjlt : j0 < cip.length := by
              rcases List.get?_eq_some.mp hK with ⟨h, _⟩
              exact h
            refine ⟨K, ?_, fun p hp => hrep p (List.mem_cons_of_mem _ hp)⟩
            rw [← hjj, List.get?_append hjlt, hK]
          | none =>
            rw [alookup_append_right _ hold] at hj
            by_cases hpr : pr = c0.intr_ptr
            · simp [alookup, hpr] at hj
              subst hj
              subst hpr
              refine ⟨c0.intr, ?_, ?_⟩
              · rw [List.get?_concat_length]
              · intro p hp hptr
                exact Hcons p (List.mem_cons_of_mem _ hp)
                  (f0, c0) (List.mem_cons_self _ _) hptr
            · simp [alookup, hpr] at hj
        have hfti2 : alookup (fti ++ [(f0, cip.length)]) f = none := by
          rw [alookup_append_right _ hfti]
          simp [alookup, hff]
        simp only [extractLoop, hsn]
        exact ih _ _ _ _ Hcons2 Hseen2 hfrest hfti2

theorem padTrunc_eq_self (xs : List ℚ) : padTrunc xs.length xs = xs := by
  simp [padTrunc]

theorem unflatten_flatten (ndp : Nat) (K : CameraIntrinsics) :
    unflattenIntr (flattenIntr ndp K) =
      { K with dist := padTrunc ndp K.dist } := rfl

theorem unflatten_flatten_exact (ndp : Nat) (K : CameraIntrinsics)
    (h : K.dist.length = ndp) : unflattenIntr (flattenIntr ndp K) = K := by
  subst h
  rw [unflatten_flatten, padTrunc_eq_self]

theorem landmark_set_loc_self (lm : Landmark) :
    landmark_set_loc lm lm.loc = lm := rfl

theorem paramsToVec3_locToParams (lm : Landmark) :
    paramsToVec3 (locToParams lm) = lm.loc := rfl

theorem alookup_landmarkParams (lms : List (TrackId × Landmark))
    (id : TrackId) :
    alookup (landmarkParamsOf lms) id = (alookup lms id).map locToParams :=
  alookup_map_keyed lms (fun _ lm => locToParams lm) id

theorem landmarkParams_keys (lms : List (TrackId × Landmark)) :
    (landmarkParamsOf lms).map Prod.fst = lms.map Prod.fst :=
  keys_map_keyed lms (fun _ lm => locToParams lm)

theorem extract_cp_eq (st : BAState) (cams : List (FrameId × Camera)) :
    (extractOf st cams).1 = cams.map (fun p => (p.1, p.2.extrinsics)) := by
  simpa using extractLoop_cp (ndpOf st) cams [] [] [] []

theorem alookup_extract_cp (st : BAState) (cams : List (FrameId × Camera))
    (f : FrameId) :
    alookup (extractOf st cams).1 f =
      (alookup cams f).map (fun c => c.extrinsics) := by
  rw [extract_cp_eq]
  exact alookup_map_keyed cams (fun _ c => c.extrinsics) f

theorem extract_cp_keys (st : BAState) (cams : List (FrameId × Camera)) :
    (extractOf st cams).1.map Prod.fst = cams.map Prod.fst := by
  rw [extract_cp_eq]
  exact keys_map_keyed cams (fun _ c => c.extrinsics)

theorem extract_inv (st : BAState) (cams : List (FrameId × Camera)) :
    (∀ p ∈ (extractOf st cams).1,
        (alookup (extractOf st cams).2.2 p.1).isSome) ∧
      ∀ p ∈ (extractOf st cams).2.2, p.2 < (extractOf st cams).2.1.length :=
  extractLoop_inv (ndpOf st) cams [] [] [] [] (by simp) (by simp) (by simp)

theorem extract_correct (st : BAState) (cams : List (FrameId × Camera))
    (Hcons : PtrConsistent cams) (f : FrameId) (c : Camera)
    (hf : alookup cams f = some c) :
    ∃ i, alookup (extractOf st cams).2.2 f = some i ∧
      (extractOf st cams).2.1.get? i =
        some (flattenIntr (ndpOf st) c.intr) :=
  extractLoop_correct (ndpOf st) cams [] [] [] [] Hcons
    (by intro pr i h; simp [alookup] at h) f c hf rfl

theorem residualLoop_stable (st : BAState) (cams : List (FrameId × Camera))
    (lms : List (TrackId × Landmark)) (trks : List Track) :
    (residualLoopOf st cams lms trks).1 =
        specResiduals st.camera_opts.lens_distortion_type
          (landmarkParamsOf lms) (extractOf st cams).1
          (extractOf st cams).2.2 trks ∧
      (residualLoopOf st cams lms trks).2.1 = (extractOf st cams).2.2 := by
  apply trackLoop_stable
  intro t _ht ts _hts hcp
  obtain ⟨v, hv⟩ := Option.isSome_iff_exists.mp hcp
  exact (extract_inv st cams).1 _ (mem_of_alookup_eq_some hv)

theorem mem_specResiduals (dt : DistortionType) (lmp : List (TrackId × Params))
    (cp : List (FrameId × Params)) (m : List (FrameId × Nat))
    (trks : List Track) (res : Residual) :
    res ∈ specResiduals dt lmp cp m trks ↔
      ∃ t, t ∈ trks ∧ (alookup lmp t.id).isSome ∧
        ∃ ts, ts ∈ t.history ∧ (alookup cp ts.frame_id).isSome ∧
          res = { dt := dt, obs_x := ts.feat.1, obs_y := ts.feat.2,
                  intr_block := (alookup m ts.frame_id).getD 0,
                  cam_block := ts.frame_id, lm_block := t.id } := by
  simp only [specResiduals, List.mem_flatMap]
  constructor
  · rintro ⟨t, ht, hres⟩
    by_cases hl : (alookup lmp t.id).isSome
    · rw [if_pos hl] at hres
      simp only [specResidualsOfTrack, List.mem_filterMap] at hres
      obtain ⟨ts, hts, hmk⟩ := hres
      by_cases hc : (alookup cp ts.frame_id).isSome
      · rw [if_pos hc] at hmk
        exact ⟨t, ht, hl, ts, hts, hc, (Option.some.inj hmk).symm⟩
      · rw [if_neg hc] at hmk
        cases hmk
    · rw [if_neg hl] at hres
      exact absurd hres (List.not_mem_nil res)
  · rintro ⟨t, ht, hl, ts, hts, hc, rfl⟩
    refine ⟨t, ht, ?_⟩
    rw [if_pos hl]
    simp only [specResidualsOfTrack, List.mem_filterMap]
    exact ⟨ts, hts, by rw [if_pos hc]⟩

theorem optimize_some_flags (st : BAState)
    (solve : List Residual → ParamStore → ParamStore)
    (cams : List (FrameId × Camera)) (lms : List (TrackId × Landmark))
    (trks : List Track) :
    (optimize st solve (some cams) (some lms) (some trks)).aborted = false ∧
      (optimize st solve (some cams) (some lms) (some trks)).solveInvoked
        = true ∧
      (optimize st solve (some cams) (some lms) (some trks)).errorReported
        = false ∧
      (optimize st solve (some cams) (some lms) (some trks)).lossCreated
        = 1 :=
  ⟨rfl, rfl, rfl, rfl⟩

theorem optimize_some_residuals (st : BAState)
    (solve : List Residual → ParamStore → ParamStore)
    (cams : List (FrameId × Camera)) (lms : List (TrackId × Landmark))
    (trks : List Track) :
    (optimize st solve (some cams) (some lms) (some trks)).residuals =
      (residualLoopOf st cams lms trks).1 := rfl

theorem optimize_some_pre (st : BAState)
    (solve : List Residual → ParamStore → ParamStore)
    (cams : List (FrameId × Camera)) (lms : List (TrackId × Landmark))
    (trks : List Track) :
    (optimize st solve (some cams) (some lms) (some trks)).pre =
      preStoreOf st cams lms := rfl

theorem optimize_some_post (st : BAState)
    (solve : List Residual → ParamStore → ParamStore)
    (cams : List (FrameId × Camera)) (lms : List (TrackId × Landmark))
    (trks : List Track) :
    (optimize st solve (some cams) (some lms) (some trks)).post =
      solve (residualLoopOf st cams lms trks).1 (preStoreOf st cams lms) :=
  rfl

theorem optimize_some_ftiPre (st : BAState)
    (solve : List Residual → ParamStore → ParamStore)
    (cams : List (FrameId × Camera)) (lms : List (TrackId × Landmark))
    (trks : List Track) :
    (optimize st solve (some cams) (some lms) (some trks)).ftiPre =
      (extractOf st cams).2.2 := rfl

theorem optimize_some_ftiPost (st : BAState)
    (solve : List Residual → ParamStore → ParamStore)
    (cams : List (FrameId × Camera)) (lms : List (TrackId × Landmark))
    (trks : List Track) :
    (optimize st solve (some cams) (some lms) (some trks)).ftiPost =
      (residualLoopOf st cams lms trks).2.1 := rfl

theorem optimize_some_landmarks (st : BAState)
    (solve : List Residual → ParamStore → ParamStore)
    (cams : List (FrameId × Camera)) (lms : List (TrackId × Landmark))
    (trks : List Track) :
    (optimize st solve (some cams) (some lms) (some trks)).landmarks =
      some (updateLandmarksLoop
        (solve (residualLoopOf st cams lms trks).1
          (preStoreOf st cams lms)).lms lms) := rfl

theorem optimize_some_cameras (st : BAState)
    (solve : List Residual → ParamStore → ParamStore)
    (cams : List (FrameId × Camera)) (lms : List (TrackId × Landmark))
    (trks : List Track) :
    (optimize st solve (some cams) (some lms) (some trks)).cameras =
      some (update_camera_parameters
        (solve (residualLoopOf st cams lms trks).1
          (preStoreOf st cams lms)).cams
        (solve (residualLoopOf st cams lms trks).1
          (preStoreOf st cams lms)).intrs
        (residualLoopOf st cams lms trks).2.1) := rfl

theorem optimize_some_loss (st : BAState)
    (solve : List Residual → ParamStore → ParamStore)
    (cams : List (FrameId × Camera)) (lms : List (TrackId × Landmark))
    (trks : List Track) :
    (optimize st solve (some cams) (some lms) (some trks)).lossAttached =
        (residualLoopOf st cams lms trks).2.2 ∧
      (optimize st solve (some cams) (some lms) (some trks)).lossDeleted =
        ((LossFunctionFactory st.loss_function_type
            st.loss_function_scale).isSome &&
          !(residualLoopOf st cams lms trks).2.2) :=
  ⟨rfl, rfl⟩

theorem optimize_some_intrConstraints (st : BAState)
    (solve : List Residual → ParamStore → ParamStore)
    (cams : List (FrameId × Camera)) (lms : List (TrackId × Landmark))
    (trks : List Track) :
    (optimize st solve (some cams) (some lms) (some trks)).intrConstraints =
      (extractOf st cams).2.1.map
        (fun _cip => intrinsicsConstraint (ndpOf st)
          (enumerate_constant_intrinsics st.camera_opts)) := rfl

theorem idSolve_spec : SolverSpec idSolve :=
  ⟨fun _ _ => rfl, fun _ _ => rfl, fun _ _ => rfl,
   fun _ _ _ _ => rfl, fun _ _ _ _ => rfl, fun _ _ _ _ => rfl⟩

/-- C10: check_configuration returns the same result for any two
configuration-block arguments on states holding the same solver options: the
verdict depends only on the options previously stored by set_configuration,
and the passed configuration argument is ignored. -/
theorem C10_check_configuration_config_independent (st st' : BAState)
    (c1 c2 : ConfigBlock) (h : st.options = st'.options) :
    check_configuration st c1 = check_configuration st' c2 := by
  simp [check_configuration, Options_IsValid, h]

/-- C10 witness: two different configuration blocks passed to two states
differing everywhere but in the stored solver options give the same
check_configuration verdict. -/
theorem C10_witness :
    check_configuration exState [] =
      check_configuration { exState with verbose := true } [("k", "v")] :=
  C10_check_configuration_config_independent exState
    { exState with verbose := true } [] [("k", "v")] rfl

/-- C2 counterexample: the claim says every optimize call performs a solver
configuration validity check and fails without solving when the configuration
is invalid; on a state whose options fail IsValid, check_configuration
reports the failure, yet optimize neither aborts nor skips the solve — the
solver is invoked regardless. -/
theorem C2_counterexample :
    (check_configuration exStateBad []).ok = false ∧
      (optimize exStateBad idSolve (some exCams) (some exLms)
        (some exTrks)).solveInvoked = true ∧
      (optimize exStateBad idSolve (some exCams) (some exLms)
        (some exTrks)).aborted = false :=
  ⟨rfl, rfl, rfl⟩

/-- C2 amended: the validity check exists only in check_configuration, which
returns the IsValid verdict of the stored solver options and logs an error
exactly when they are invalid; optimize itself performs no such check and
always proceeds to invoke the solver on non-null inputs, whatever the
configuration's validity. -/
theorem C2_amended (st : BAState) (c : ConfigBlock)
    (solve : List Residual → ParamStore → ParamStore)
    (cams : List (FrameId × Camera)) (lms : List (TrackId × Landmark))
    (trks : List Track) :
    (check_configuration st c).ok = Options_IsValid st.options ∧
      (check_configuration st c).errorLogged
        = !Options_IsValid st.options ∧
      (optimize st solve (some cams) (some lms) (some trks)).solveInvoked
        = true := by
  refine ⟨?_, ?_, rfl⟩
  · by_cases h : Options_IsValid st.options <;> simp [check_configuration, h]
  · by_cases h : Options_IsValid st.options <;> simp [check_configuration, h]

/-- C5: the per-intrinsics-block constraint policy of optimize (lines
277-292): whenever the constant-index count exceeds the total parameter
count 5+D of the block, the whole block is set constant (no subset-freeze
parameterization is constructed), and when the constant-index list is empty
no constraint at all is applied to the block. -/
theorem C5_constraint_policy (ndp : Nat) (ci : List Nat) :
    (5 + ndp < ci.length →
        intrinsicsConstraint ndp ci = BlockConstraint.fullyConstant) ∧
      (ci = [] →
        intrinsicsConstraint ndp ci = BlockConstraint.unconstrained) := by
  constructor
  · intro h
    have h4 : 4 + ndp < ci.length := by omega
    simp [intrinsicsConstraint, h4]
  · rintro rfl
    simp [intrinsicsConstraint]

/-- C5 witness: a six-entry constant-index vector over a 5-parameter block
(D = 0) freezes the whole block, and an empty vector leaves it
unconstrained. -/
theorem C5_witness :
    intrinsicsConstraint 0 [0, 1, 2, 3, 4, 0] =
        BlockConstraint.fullyConstant ∧
      intrinsicsConstraint 0 [] = BlockConstraint.unconstrained :=
  ⟨(C5_constraint_policy 0 [0, 1, 2, 3, 4, 0]).1 (by decide),
   (C5_constraint_policy 0 []).2 rfl⟩

/-- C1 counterexample: the claim says an empty or null camera/landmark
collection aborts optimize with a reported error.  With an empty (non-null)
camera collection the call does not abort at all and proceeds to the solver;
with a null camera collection it does return early, but silently — no error
is reported. -/
theorem C1_counterexample :
    (optimize exState idSolve (some ([] : List (FrameId × Camera)))
        (some exLms) (some exTrks)).aborted = false ∧
      (optimize exState idSolve (some ([] : List (FrameId × Camera)))
        (some exLms) (some exTrks)).solveInvoked = true ∧
      (optimize exState idSolve none (some exLms)
        (some exTrks)).aborted = true ∧
      (optimize exState idSolve none (some exLms)
        (some exTrks)).errorReported = false :=
  ⟨rfl, rfl, rfl, rfl⟩

/-- C1 amended: only a null (absent) camera, landmark or track collection
aborts optimize, immediately and before constructing the problem, leaving
both collection references unchanged and adding no residuals — but silently:
no error is reported (the source carries a TODO to throw an exception).
Empty-but-present collections do not abort. -/
theorem C1_amended (st : BAState)
    (solve : List Residual → ParamStore → ParamStore)
    (cameras : Option (List (FrameId × Camera)))
    (landmarks : Option (List (TrackId × Landmark)))
    (tracks : Option (List Track))
    (h : cameras = none ∨ landmarks = none ∨ tracks = none) :
    (optimize st solve cameras landmarks tracks).aborted = true ∧
      (optimize st solve cameras landmarks tracks).cameras = cameras ∧
      (optimize st solve cameras landmarks tracks).landmarks = landmarks ∧
      (optimize st solve cameras landmarks tracks).errorReported = false ∧
      (optimize st solve cameras landmarks tracks).solveInvoked = false ∧
      (optimize st solve cameras landmarks tracks).residuals = [] := by
  rcases cameras with _ | cams
  · exact ⟨rfl, rfl, rfl, rfl, rfl, rfl⟩
  rcases landmarks with _ | lms
  · exact ⟨rfl, rfl, rfl, rfl, rfl, rfl⟩
  rcases tracks with _ | trks
  · exact ⟨rfl, rfl, rfl, rfl, rfl, rfl⟩
  exfalso
  rcases h with h | h | h <;> exact Option.noConfusion h

/-- C1 witness: the amended statement at fully null inputs. -/
theorem C1_witness :
    (optimize exState idSolve none none none).aborted = true ∧
      (optimize exState idSolve none none none).cameras = none ∧
      (optimize exState idSolve none none none).landmarks = none ∧
      (optimize exState idSolve none none none).errorReported = false ∧
      (optimize exState idSolve none none none).solveInvoked = false ∧
      (optimize exState idSolve none none none).residuals = [] :=
  C1_amended exState idSolve none none none (Or.inl rfl)

/-- C7: exactly one loss-function instance is created per optimize call; it
ends attached to (owned by) the problem exactly when at least one residual
was added, it is explicitly deleted exactly when zero residuals were added,
and it is never both attached and deleted — no leak and no double free. -/
theorem C7_loss_ownership (st : BAState)
    (solve : List Residual → ParamStore → ParamStore)
    (cams : List (FrameId × Camera)) (lms : List (TrackId × Landmark))
    (trks : List Track) :
    (optimize st solve (some cams) (some lms) (some trks)).lossAttached =
        !(optimize st solve (some cams) (some lms)
          (some trks)).residuals.isEmpty ∧
      (optimize st solve (some cams) (some lms) (some trks)).lossDeleted =
        (optimize st solve (some cams) (some lms)
          (some trks)).residuals.isEmpty ∧
      ((optimize st solve (some cams) (some lms) (some trks)).lossAttached
          &&
        (optimize st solve (some cams) (some lms)
          (some trks)).lossDeleted) = false ∧
      (optimize st solve (some cams) (some lms) (some trks)).lossCreated
        = 1 := by
  have h1 := (optimize_some_loss st solve cams lms trks).1
  have h2 := (optimize_some_loss st solve cams lms trks).2
  have hu : (residualLoopOf st cams lms trks).2.2 =
      !(residualLoopOf st cams lms trks).1.isEmpty := by
    have := trackLoop_used st.camera_opts.lens_distortion_type
      (landmarkParamsOf lms) (extractOf st cams).1 trks
      (extractOf st cams).2.2 false
    simpa [residualLoopOf] using this
  refine ⟨?_, ?_, ?_, rfl⟩
  · rw [h1, optimize_some_residuals, hu]
  · rw [h2, optimize_some_residuals, hu]
    simp [LossFunctionFactory]
  · rw [h1, h2, hu]
    cases hE : (residualLoopOf st cams lms trks).1.isEmpty <;>
      simp [hE, LossFunctionFactory]

/-- C9: during the residual-building loop of optimize, every frame in the
extracted camera-extrinsics map has an entry in the frame-to-intrinsics-index
map whose index is a valid position in the unique-intrinsics list; hence the
`frame_to_intr_map[frame]` subscript never inserts a spurious zero-index
entry (the map after the loop equals the map before) and every assembled
residual's intrinsics index is in bounds. -/
theorem C9_intr_index_safety (st : BAState)
    (solve : List Residual → ParamStore → ParamStore)
    (cams : List (FrameId × Camera)) (lms : List (TrackId × Landmark))
    (trks : List Track) :
    (optimize st solve (some cams) (some lms) (some trks)).ftiPost =
        (optimize st solve (some cams) (some lms) (some trks)).ftiPre ∧
      (∀ p ∈ (optimize st solve (some cams) (some lms)
          (some trks)).pre.cams,
        ∃ i, alookup (optimize st solve (some cams) (some lms)
            (some trks)).ftiPre p.1 = some i ∧
          i < (optimize st solve (some cams) (some lms)
            (some trks)).pre.intrs.length) ∧
      ∀ res ∈ (optimize st solve (some cams) (some lms)
          (some trks)).residuals,
        res.intr_block < (optimize st solve (some cams) (some lms)
          (some trks)).pre.intrs.length := by
  rw [optimize_some_ftiPost, optimize_some_ftiPre, optimize_some_pre,
    optimize_some_residuals]
  refine ⟨(residualLoop_stable st cams lms trks).2, ?_, ?_⟩
  · intro p hp
    have hcov := (extract_inv st cams).1 p hp
    obtain ⟨i, hi⟩ := Option.isSome_iff_exists.mp hcov
    exact ⟨i, hi, (extract_inv st cams).2 _ (mem_of_alookup_eq_some hi)⟩
  · intro res hres
    rw [(residualLoop_stable st cams lms trks).1,
      mem_specResiduals] at hres
    obtain ⟨t, _, _, ts, _, hc, rfl⟩ := hres
    obtain ⟨v, hv⟩ := Option.isSome_iff_exists.mp hc
    have hS := (extract_inv st cams).1 _ (mem_of_alookup_eq_some hv)
    obtain ⟨i, hi⟩ := Option.isSome_iff_exists.mp hS
    have hlt := (extract_inv st cams).2 _ (mem_of_alookup_eq_some hi)
    simpa [hi] using hlt

/-- C9 witness: on the two-camera example, the frame map is unchanged by the
loop, frame 1's entry indexes inside the intrinsics list, and the first
assembled residual's intrinsics index is in bounds. -/
theorem C9_witness :
    (optimize exState idSolve (some exCams) (some exLms)
        (some exTrks)).ftiPost =
      (optimize exState idSolve (some exCams) (some exLms)
        (some exTrks)).ftiPre ∧
      (∃ i, alookup (optimize exState idSolve (some exCams) (some exLms)
          (some exTrks)).ftiPre 1 = some i ∧
        i < (optimize exState idSolve (some exCams) (some exLms)
          (some exTrks)).pre.intrs.length) ∧
      exRes1.intr_block < (optimize exState idSolve (some exCams)
        (some exLms) (some exTrks)).pre.intrs.length :=
  ⟨(C9_intr_index_safety exState idSolve exCams exLms exTrks).1,
   (C9_intr_index_safety exState idSolve exCams exLms exTrks).2.1
     (1, exCam1.extrinsics) (by decide),
   (C9_intr_index_safety exState idSolve exCams exLms exTrks).2.2
     exRes1 (by decide)⟩

/-- C4: a residual is assembled for a track observation if and only if the
track's landmark is present in the extracted landmark parameter map and the
observation's frame is present in the extracted camera parameter map; every
assembled residual is wired to exactly three parameter blocks — the frame's
intrinsics-group index, the frame's extrinsics block and the track's landmark
block — keyed by the observation that produced it. -/
theorem C4_residual_membership (st : BAState)
    (solve : List Residual → ParamStore → ParamStore)
    (cams : List (FrameId × Camera)) (lms : List (TrackId × Landmark))
    (trks : List Track) (res : Residual) :
    res ∈ (optimize st solve (some cams) (some lms)
        (some trks)).residuals ↔
      ∃ t, t ∈ trks ∧
        (alookup (optimize st solve (some cams) (some lms)
          (some trks)).pre.lms t.id).isSome ∧
        ∃ ts, ts ∈ t.history ∧
          (alookup (optimize st solve (some cams) (some lms)
            (some trks)).pre.cams ts.frame_id).isSome ∧
          res = { dt := st.camera_opts.lens_distortion_type,
                  obs_x := ts.feat.1, obs_y := ts.feat.2,
                  intr_block := (alookup (optimize st solve (some cams)
                    (some lms) (some trks)).ftiPre ts.frame_id).getD 0,
                  cam_block := ts.frame_id, lm_block := t.id } := by
  rw [optimize_some_residuals, (residualLoop_stable st cams lms trks).1]
  exact mem_specResiduals st.camera_opts.lens_distortion_type
    (landmarkParamsOf lms) (extractOf st cams).1 (extractOf st cams).2.2
    trks res

/-- C4 witness: the concrete first residual of the running example is indeed
assembled, via the right-to-left direction of the characterization at track
7's frame-1 observation. -/
theorem C4_witness :
    exRes1 ∈ (optimize exState idSolve (some exCams) (some exLms)
      (some exTrks)).residuals :=
  (C4_residual_membership exState idSolve exCams exLms exTrks exRes1).mpr
    ⟨exTrack, by decide, by decide,
     { frame_id := 1, feat := (0, 0) }, by decide, by decide, by decide⟩

/-- C6: membership preservation — for every completed optimize call, the
output camera collection binds exactly the frame ids of the input camera
collection and the output landmark collection binds exactly the track ids of
the input landmark collection (the external solver mutates parameter buffers
in place, so it preserves the key structure: `SolverSpec`). -/
theorem C6_membership_preservation (st : BAState)
    (solve : List Residual → ParamStore → ParamStore)
    (cams : List (FrameId × Camera)) (lms : List (TrackId × Landmark))
    (trks : List Track) (hs : SolverSpec solve)
    (hnd : (lms.map Prod.fst).Nodup) :
    (∀ f, (alookup ((optimize st solve (some cams) (some lms)
          (some trks)).cameras.getD []) f).isSome ↔
        (alookup cams f).isSome) ∧
      ∀ id, (alookup ((optimize st solve (some cams) (some lms)
          (some trks)).landmarks.getD []) id).isSome ↔
        (alookup lms id).isSome := by
  constructor
  · intro f
    rw [optimize_some_cameras]
    simp only [Option.getD_some]
    refine alookup_isSome_congr ?_ f
    rw [update_camera_parameters]
    rw [keys_map_keyed _ (fun k ext =>
      ({ extrinsics := ext,
         intr_ptr := (alookup (residualLoopOf st cams lms trks).2.1 k).getD 0,
         intr := unflattenIntr
           (((solve (residualLoopOf st cams lms trks).1
              (preStoreOf st cams lms)).intrs.get?
             ((alookup (residualLoopOf st cams lms trks).2.1 k).getD 0)).getD
             []) } : Camera))]
    rw [hs.cams_keys]
    exact extract_cp_keys st cams
  · intro id
    rw [optimize_some_landmarks]
    simp only [Option.getD_some]
    have hkeys : ((solve (residualLoopOf st cams lms trks).1
        (preStoreOf st cams lms)).lms).map Prod.fst = lms.map Prod.fst := by
      rw [hs.lms_keys]
      exact landmarkParams_keys lms
    have hnd2 : (((solve (residualLoopOf st cams lms trks).1
        (preStoreOf st cams lms)).lms).map Prod.fst).Nodup := by
      rw [hkeys]; exact hnd
    rw [updateLandmarksLoop_alookup _ lms id hnd2]
    cases hsl : alookup (solve (residualLoopOf st cams lms trks).1
        (preStoreOf st cams lms)).lms id with
    | some p => simp
    | none => simp

/-- C6 witness: on the running example the output collections still bind
frame 2 and track 9, exactly as the inputs do. -/
theorem C6_witness :
    ((alookup ((optimize exState idSolve (some exCams) (some exLms)
          (some exTrks)).cameras.getD []) 2).isSome ↔
        (alookup exCams 2).isSome) ∧
      ((alookup ((optimize exState idSolve (some exCams) (some exLms)
          (some exTrks)).landmarks.getD []) 9).isSome ↔
        (alookup exLms 9).isSome) :=
  ⟨(C6_membership_preservation exState idSolve exCams exLms exTrks
      idSolve_spec (by decide)).1 2,
   (C6_membership_preservation exState idSolve exCams exLms exTrks
      idSolve_spec (by decide)).2 9⟩

/-- C8: each track id of the landmark map comes out bound to a newly
constructed landmark whose position equals the (solver-mutated) landmark
parameter block for that id and whose every other attribute — scale, color,
covariance — equals the corresponding attribute of the original landmark. -/
theorem C8_landmark_update (st : BAState)
    (solve : List Residual → ParamStore → ParamStore)
    (cams : List (FrameId × Camera)) (lms : List (TrackId × Landmark))
    (trks : List Track) (id : TrackId) (lm : Landmark)
    (hs : SolverSpec solve) (hnd : (lms.map Prod.fst).Nodup)
    (hlm : alookup lms id = some lm) :
    ∃ p, alookup (optimize st solve (some cams) (some lms)
        (some trks)).post.lms id = some p ∧
      ∃ lm2, alookup ((optimize st solve (some cams) (some lms)
          (some trks)).landmarks.getD []) id = some lm2 ∧
        lm2.loc = paramsToVec3 p ∧ lm2.scale = lm.scale ∧
        lm2.color = lm.color ∧ lm2.covar = lm.covar := by
  rw [optimize_some_post, optimize_some_landmarks]
  simp only [Option.getD_some]
  have hkeys : ((solve (residualLoopOf st cams lms trks).1
      (preStoreOf st cams lms)).lms).map Prod.fst = lms.map Prod.fst := by
    rw [hs.lms_keys]
    exact landmarkParams_keys lms
  have hnd2 : (((solve (residualLoopOf st cams lms trks).1
      (preStoreOf st cams lms)).lms).map Prod.fst).Nodup := by
    rw [hkeys]; exact hnd
  have hsome : (alookup (solve (residualLoopOf st cams lms trks).1
      (preStoreOf st cams lms)).lms id).isSome := by
    rw [alookup_isSome_congr hkeys id]
    simp [hlm]
  obtain ⟨p, hp⟩ := Option.isSome_iff_exists.mp hsome
  refine ⟨p, hp, ?_⟩
  rw [updateLandmarksLoop_alookup _ lms id hnd2, hp, hlm]
  exact ⟨landmark_set_loc lm (paramsToVec3 p), rfl, rfl, rfl, rfl, rfl⟩

/-- C8 witness: track 7's landmark of the running example comes out as a new
landmark at the optimized position with the original scale, color and
covariance. -/
theorem C8_witness :
    ∃ p, alookup (optimize exState idSolve (some exCams) (some exLms)
        (some exTrks)).post.lms 7 = some p ∧
      ∃ lm2, alookup ((optimize exState idSolve (some exCams) (some exLms)
          (some exTrks)).landmarks.getD []) 7 = some lm2 ∧
        lm2.loc = paramsToVec3 p ∧ lm2.scale = exLm.scale ∧
        lm2.color = exLm.color ∧ lm2.covar = exLm.covar :=
  C8_landmark_update exState idSolve exCams exLms exTrks 7 exLm
    idSolve_spec (by decide) (by decide)

/-- C3 counterexample: the claim says cameras filtered out of the residual
set are passed through unchanged.  Two cameras share one intrinsics
instance; only frame 1 is observed, so frame 2 contributes no residual —
yet a solver run that (admissibly) mutates the shared intrinsics block of
the problem changes camera 2's intrinsics in the output collection. -/
theorem C3_counterexample :
    ((2 : FrameId) ∉ (optimize exState bumpIntrSolve (some exCamsShared)
        (some exLms) (some exTrksF1)).residuals.map
        (fun r => r.cam_block)) ∧
      (alookup ((optimize exState bumpIntrSolve (some exCamsShared)
          (some exLms) (some exTrksF1)).cameras.getD []) 2).map
          (fun c => c.intr) ≠
        some exShared2.intr := by
  decide

/-- C3 amended: landmarks outside the residual set are passed through with
their full value unchanged; cameras outside the residual set keep their
extrinsic parameters unchanged, and also keep their intrinsics values
whenever their (shared) intrinsics-group block is itself outside the residual
set — but a shared group updated through another camera's residuals does
propagate into them (the one exception the counterexample exhibits). -/
theorem C3_amended (st : BAState)
    (solve : List Residual → ParamStore → ParamStore)
    (cams : List (FrameId × Camera)) (lms : List (TrackId × Landmark))
    (trks : List Track) (hs : SolverSpec solve)
    (hnd : (lms.map Prod.fst).Nodup) :
    (∀ id lm, alookup lms id = some lm →
      id ∉ (optimize st solve (some cams) (some lms)
        (some trks)).residuals.map (fun r => r.lm_block) →
      alookup ((optimize st solve (some cams) (some lms)
        (some trks)).landmarks.getD []) id = some lm) ∧
    ∀ f c, alookup cams f = some c →
      f ∉ (optimize st solve (some cams) (some lms)
        (some trks)).residuals.map (fun r => r.cam_block) →
      ∃ cOut, alookup ((optimize st solve (some cams) (some lms)
          (some trks)).cameras.getD []) f = some cOut ∧
        cOut.extrinsics = c.extrinsics ∧
        (PtrConsistent cams → c.intr.dist.length = ndpOf st →
          ∀ i, alookup (optimize st solve (some cams) (some lms)
              (some trks)).ftiPre f = some i →
            i ∉ (optimize st solve (some cams) (some lms)
              (some trks)).residuals.map (fun r => r.intr_block) →
            cOut.intr = c.intr) := by
  rw [optimize_some_cameras, optimize_some_landmarks,
    optimize_some_residuals, optimize_some_ftiPre]
  simp only [Option.getD_some]
  have hkeys : ((solve (residualLoopOf st cams lms trks).1
      (preStoreOf st cams lms)).lms).map Prod.fst = lms.map Prod.fst := by
    rw [hs.lms_keys]
    exact landmarkParams_keys lms
  have hnd2 : (((solve (residualLoopOf st cams lms trks).1
      (preStoreOf st cams lms)).lms).map Prod.fst).Nodup := by
    rw [hkeys]; exact hnd
  constructor
  · intro id lm hlm hid
    have hval : alookup (solve (residualLoopOf st cams lms trks).1
        (preStoreOf st cams lms)).lms id = some (locToParams lm) := by
      rw [hs.lms_frame _ _ id hid]
      show alookup (landmarkParamsOf lms) id = some (locToParams lm)
      rw [alookup_landmarkParams, hlm]
      rfl
    rw [updateLandmarksLoop_alookup _ lms id hnd2, hval, hlm]
    show some (landmark_set_loc lm (paramsToVec3 (locToParams lm)))
      = some lm
    rw [paramsToVec3_locToParams, landmark_set_loc_self]
  · intro f c hf hfnotin
    have hcam : alookup (solve (residualLoopOf st cams lms trks).1
        (preStoreOf st cams lms)).cams f = some c.extrinsics := by
      rw [hs.cams_frame _ _ f hfnotin]
      show alookup (extractOf st cams).1 f = some c.extrinsics
      rw [alookup_extract_cp st cams f, hf]
      rfl
    have hout : alookup (update_camera_parameters
        (solve (residualLoopOf st cams lms trks).1
          (preStoreOf st cams lms)).cams
        (solve (residualLoopOf st cams lms trks).1
          (preStoreOf st cams lms)).intrs
        (residualLoopOf st cams lms trks).2.1) f =
        some { extrinsics := c.extrinsics,
               intr_ptr := (alookup
                 (residualLoopOf st cams lms trks).2.1 f).getD 0,
               intr := unflattenIntr
                 (((solve (residualLoopOf st cams lms trks).1
                     (preStoreOf st cams lms)).intrs.get?
                   ((alookup (residualLoopOf st cams lms trks).2.1
                     f).getD 0)).getD []) } := by
      simp only [update_camera_parameters]
      rw [alookup_map_keyed _ (fun k ext =>
        ({ extrinsics := ext,
           intr_ptr := (alookup
             (residualLoopOf st cams lms trks).2.1 k).getD 0,
           intr := unflattenIntr
             (((solve (residualLoopOf st cams lms trks).1
                 (preStoreOf st cams lms)).intrs.get?
               ((alookup (residualLoopOf st cams lms trks).2.1
                 k).getD 0)).getD []) } : Camera)) f, hcam]
      rfl
    refine ⟨_, hout, rfl, ?_⟩
    intro hpc hdist i hfi hinotin
    obtain ⟨i', hi', hcip⟩ := extract_correct st cams hpc f c hf
    have hii : i' = i := Option.some.inj (hi'.symm.trans hfi)
    rw [hii] at hcip
    have hintr : (solve (residualLoopOf st cams lms trks).1
        (preStoreOf st cams lms)).intrs.get? i =
        some (flattenIntr (ndpOf st) c.intr) := by
      rw [hs.intrs_frame _ _ i hinotin]
      exact hcip
    dsimp only
    rw [(residualLoop_stable st cams lms trks).2, hfi,
      Option.getD_some, hintr, Option.getD_some]
    exact unflatten_flatten_exact _ _ hdist

/-- C3 witness: with distinct intrinsics instances and only frame 1
observed, landmark 9 and camera 2 come out exactly as they went in. -/
theorem C3_witness :
    alookup ((optimize exState idSolve (some exCams) (some exLms)
        (some exTrksF1)).landmarks.getD []) 9 = some exLm2 ∧
      ∃ cOut, alookup ((optimize exState idSolve (some exCams) (some exLms)
          (some exTrksF1)).cameras.getD []) 2 = some cOut ∧
        cOut.extrinsics = exCam2.extrinsics ∧ cOut.intr = exCam2.intr := by
  have h := C3_amended exState idSolve exCams exLms exTrksF1 idSolve_spec
    (by decide)
  refine ⟨h.1 9 exLm2 (by decide) (by decide), ?_⟩
  obtain ⟨cOut, hc1, hc2, hc3⟩ := h.2 2 exCam2 (by decide) (by decide)
  exact ⟨cOut, hc1, hc2, hc3 (by decide) (by decide) 1 (by decide)
    (by decide)⟩

end KwiverCeresBA
